import Mathlib

/-!
Verification of the dentist-API CRUD layer.

This development shallowly embeds the Go handlers of the dental clinic
backend (package `handlers`, files `modules/dental/handlers/dentist.go` and
`internal/handlers/patient.go`, plus the invoice model of the financial
module) as pure Lean functions and proves the documented properties of the
create / read / update / delete protocol, the search endpoints and the
invoice total computation.

Modelling conventions:
- A DynamoDB table is a list of records; the partition key is the `id`
  field.  `PutItem` with `ConditionExpression attribute_not_exists(ID)`
  is `putIfAbsent`, `PutItem` with `attribute_exists(ID)` is
  `putIfExists`, `DeleteItem` with `attribute_exists(ID)` is
  `deleteIfExists`; each returns `none` exactly when the store raises
  `ConditionalCheckFailedException`.  Transport failures (HTTP 500 paths)
  are not modelled: the store is assumed reachable.
- `time.Time` values are modelled as `Nat` instants; the zero value is
  `0` (Go's `IsZero`).  Storing a timestamp as its RFC3339 string and
  parsing it back is the identity at this granularity, so stored items
  keep the `Nat` field directly.  Each call of `time.Now()` inside a
  handler is one explicit `now` parameter of the embedding.
- `uuid.NewString()` is the explicit `freshId` parameter.
- A Go slice is `GoSlice α := Option (List α)`: `none` is the nil slice
  (which `encoding/json` renders as the JSON value `null`), `some l` a
  non-nil slice (rendered as a JSON array).  `append` on a nil slice
  allocates, giving a non-nil slice.
- JSON decoding of the request body is outside the embedding: handlers
  receive the already-decoded payload record (the malformed-body 400
  path is not modelled).
- Monetary `float64` fields of the financial module are modelled as
  exact rationals `Rat`; `int` quantities as `Int`.
-/

namespace GoDentist

/-- Go slice: `none` models a nil slice, `some l` a non-nil slice with
elements `l`.  `encoding/json` encodes a nil slice as the JSON value
`null` and a non-nil slice as a JSON array. -/
abbrev GoSlice (α : Type) := Option (List α)

/-- Go's built-in `append` on a slice: appending to a nil slice allocates
a fresh non-nil slice. -/
def goAppend {α : Type} (s : GoSlice α) (a : α) : GoSlice α :=
  some ((s.getD []) ++ [a])

/-- Does `hay` start with `pat`?  Helper for Go's `strings.Contains`. -/
def charsStartWith : List Char → List Char → Bool
  | _, [] => true
  | [], _ :: _ => false
  | a :: as, b :: bs => a == b && charsStartWith as bs

/-- Does `hay` contain `pat` as a contiguous run?  Helper for Go's
`strings.Contains`. -/
def charsContain : List Char → List Char → Bool
  | [], pat => pat.isEmpty
  | a :: t, pat => charsStartWith (a :: t) pat || charsContain t pat

/-- Go's `strings.Contains(s, sub)` (byte-wise, case-sensitive; also the
semantics of DynamoDB's `contains(path, operand)` on strings). -/
def goContains (s sub : String) : Bool :=
  charsContain s.toList sub.toList

/-- ASCII lower-casing of one character (Go's `unicode.ToLower`
restricted to ASCII, which is all the repository's data exercises). -/
def asciiToLower (c : Char) : Char :=
  if 65 ≤ c.toNat ∧ c.toNat ≤ 90 then Char.ofNat (c.toNat + 32) else c

/-- Go's `strings.ToLower` restricted to ASCII folding. -/
def goToLower (s : String) : String :=
  String.mk (s.data.map asciiToLower)

/-- Go's `strings.EqualFold(a, b)` restricted to ASCII folding. -/
def goEqualFold (a b : String) : Bool :=
  goToLower a == goToLower b

/-- The `models.Dentist` struct (`modules/dental/models/dentist.go`).
Timestamps are `Nat` instants, `0` being Go's zero `time.Time`. -/
structure Dentist where
  id : String
  name : String
  email : String
  phone : String
  cro : String
  country : String
  specialty : String
  createdAt : Nat
  updatedAt : Nat
deriving DecidableEq, Repr

/-- The method `Dentist.IsValid`: first missing required field, as the
error message Go returns, or `none` when the record is valid. -/
def Dentist.isValid (d : Dentist) : Option String :=
  if d.name = "" then some "name is required"
  else if d.email = "" then some "email is required"
  else if d.cro = "" then some "CRO is required"
  else if d.country = "" then some "country is required"
  else none

/-- The `Dentists` DynamoDB table: one record per item, keyed by `id`. -/
abbrev Table := List Dentist

/-- Does an item with the given key exist in the table? -/
def keyExists (t : Table) (id : String) : Bool :=
  t.any (fun x => x.id == id)

/-- `GetItem` by partition key. -/
def getItem (t : Table) (id : String) : Option Dentist :=
  t.find? (fun x => x.id == id)

/-- `PutItem` with `ConditionExpression attribute_not_exists(ID)`:
`none` models `ConditionalCheckFailedException`. -/
def putIfAbsent (t : Table) (d : Dentist) : Option Table :=
  if keyExists t d.id then none else some (t ++ [d])

/-- `PutItem` with `ConditionExpression attribute_exists(ID)`: replaces
the keyed item; `none` models `ConditionalCheckFailedException`. -/
def putIfExists (t : Table) (d : Dentist) : Option Table :=
  if keyExists t d.id then
    some (t.map (fun x => if x.id == d.id then d else x))
  else none

/-- `DeleteItem` with `ConditionExpression attribute_exists(ID)`:
`none` models `ConditionalCheckFailedException`. -/
def deleteIfExists (t : Table) (id : String) : Option Table :=
  if keyExists t id then
    some (t.filter (fun x => !(x.id == id)))
  else none

/-- The outcome a handler writes to the `http.ResponseWriter`. -/
inductive HttpResponse where
  | created (d : Dentist)
  | okRecord (d : Dentist)
  | okRecords (ds : GoSlice Dentist)
  | noContent
  | badRequest (msg : String)
  | conflict (msg : String)
  | notFound (msg : String)
deriving DecidableEq, Repr

/-- The HTTP status code of a response. -/
def HttpResponse.status : HttpResponse → Nat
  | .created _ => 201
  | .okRecord _ => 200
  | .okRecords _ => 200
  | .noContent => 204
  | .badRequest _ => 400
  | .conflict _ => 409
  | .notFound _ => 404

/-- The two timestamp-stamping statements of `CreateDentist`: a zero
`CreatedAt` is set from the first clock read `now1`, a zero `UpdatedAt`
from the second clock read `now2`. -/
def stampCreate (d : Dentist) (now1 now2 : Nat) : Dentist :=
  let d1 := if d.createdAt = 0 then { d with createdAt := now1 } else d
  if d1.updatedAt = 0 then { d1 with updatedAt := now2 } else d1

/-- The handler `CreateDentist` (`modules/dental/handlers/dentist.go`):
assign `freshId` when the payload's ID is blank, validate, stamp zero
timestamps from two successive clock reads (`now1` for `CreatedAt`,
`now2` for `UpdatedAt`), then conditionally put.  Returns the response
and the resulting table. -/
def createDentist (freshId : String) (now1 now2 : Nat) (t : Table)
    (payload : Dentist) : HttpResponse × Table :=
  let d0 := if payload.id = "" then { payload with id := freshId } else payload
  match d0.isValid with
  | some msg => (.badRequest msg, t)
  | none =>
    let d2 := stampCreate d0 now1 now2
    match putIfAbsent t d2 with
    | none => (.conflict "Dentist with this ID already exists", t)
    | some t' => (.created d2, t')

/-- The field-by-field merge inside `UpdateDentist`: each present
(non-empty) payload field overwrites the stored value, each empty one
preserves it.  The payload's ID and timestamps are never consulted. -/
def mergeDentist (cur payload : Dentist) : Dentist :=
  let c1 := if payload.name ≠ "" then { cur with name := payload.name } else cur
  let c2 := if payload.email ≠ "" then { c1 with email := payload.email } else c1
  let c3 := if payload.phone ≠ "" then { c2 with phone := payload.phone } else c2
  let c4 := if payload.cro ≠ "" then { c3 with cro := payload.cro } else c3
  let c5 := if payload.country ≠ "" then { c4 with country := payload.country } else c4
  if payload.specialty ≠ "" then { c5 with specialty := payload.specialty } else c5

/-- The handler `UpdateDentist`: read the stored record, merge the
payload onto it, validate the merged record, re-stamp `UpdatedAt` from
the clock read `now`, then conditionally put (existence precondition). -/
def updateDentist (now : Nat) (t : Table) (id : String)
    (payload : Dentist) : HttpResponse × Table :=
  match getItem t id with
  | none => (.notFound "Dentist not found", t)
  | some cur =>
    let m := mergeDentist cur payload
    match m.isValid with
    | some msg => (.badRequest msg, t)
    | none =>
      let m' := { m with updatedAt := now }
      match putIfExists t m' with
      | none => (.notFound "Dentist not found", t)
      | some t' => (.okRecord m', t')

/-- The handler `DeleteDentist`: conditional delete by key. -/
def deleteDentist (t : Table) (id : String) : HttpResponse × Table :=
  match deleteIfExists t id with
  | none => (.notFound "Dentist not found", t)
  | some t' => (.noContent, t')

/-- The accumulation loop shared by the list handlers: start from the
nil slice, `append` once per scanned item. -/
def buildSlice (items : List Dentist) : GoSlice Dentist :=
  items.foldl goAppend none

/-- The handler `GetAllDentists` (`modules/dental/handlers/dentist.go`):
scan the table, accumulate into an initially-nil slice, encode with
status 200. -/
def getAllDentists (t : Table) : HttpResponse :=
  .okRecords (buildSlice t)

/-- The handler `GetDentistByName` of the dental module: the scan's
`FilterExpression contains(#name, :name)` is evaluated by the store
(case-sensitive `goContains`), and the handler accumulates the returned
items into an initially-nil slice, always answering 200. -/
def getDentistByNameDental (t : Table) (name : String) : HttpResponse :=
  .okRecords (buildSlice (t.filter (fun d => goContains d.name name)))

/-- The handler `GetDentistByName` of `internal/handlers/patient.go`:
scan everything, retain the records whose lowered name contains the
lowered needle, 404 on an empty result. -/
def getDentistByNameScan (t : Table) (name : String) : HttpResponse :=
  let matching := t.foldl
    (fun acc dd =>
      if goContains (goToLower dd.name) (goToLower name) then goAppend acc dd else acc)
    none
  if (matching.getD []).length = 0 then
    .notFound "No dentists found with this name"
  else .okRecords matching

/-- The first-match loop of `GetDentistByCRO`
(`internal/handlers/patient.go`): return the first scanned record whose
CRO equals the needle under `strings.EqualFold`. -/
def findByCRO : List Dentist → String → Option Dentist
  | [], _ => none
  | dd :: rest, cro =>
    if goEqualFold dd.cro cro then some dd else findByCRO rest cro

/-- The handler `GetDentistByCRO` of `internal/handlers/patient.go`:
200 with the first case-insensitive CRO match, else 404. -/
def getDentistByCROScan (t : Table) (cro : String) : HttpResponse :=
  match findByCRO t cro with
  | some d => .okRecord d
  | none => .notFound "No dentist found with this CRO"

/-- The handler `GetDentistByCRO` of the dental module
(`modules/dental/handlers/dentist.go`): the scan's
`FilterExpression CRO = :cro` is evaluated by the store with
case-sensitive string equality; the handler answers 404 when zero items
come back and otherwise 200 with the first returned item. -/
def getDentistByCRODental (t : Table) (cro : String) : HttpResponse :=
  match t.filter (fun d => d.cro == cro) with
  | [] => .notFound "Dentist not found"
  | d :: _ => .okRecord d

/-- An item of `models.Invoice` (financial module).  `float64` prices
are exact rationals here. -/
structure InvoiceItem where
  description : String
  quantity : Int
  unitPrice : Rat
  totalPrice : Rat
deriving DecidableEq, Repr

/-- The `models.Invoice` struct of the financial module.  The Go field
`Type` is `invType`; enum-like string types are plain strings. -/
structure Invoice where
  id : String
  number : String
  invType : String
  status : String
  patientId : String
  patientName : String
  patientEmail : String
  items : List InvoiceItem
  subtotal : Rat
  taxAmount : Rat
  totalAmount : Rat
  issueDate : Nat
  dueDate : Nat
  notes : String
  createdAt : Nat
  updatedAt : Nat
deriving DecidableEq, Repr

/-- The loop body of `Invoice.CalculateTotals`: walk the items with the
running subtotal, setting each item's `TotalPrice` to quantity times
unit price and adding it to the subtotal. -/
def calcLoop : Rat → List InvoiceItem → Rat × List InvoiceItem
  | subtotal, [] => (subtotal, [])
  | subtotal, it :: rest =>
    let it' := { it with totalPrice := (it.quantity : Rat) * it.unitPrice }
    let r := calcLoop (subtotal + it'.totalPrice) rest
    (r.1, it' :: r.2)

/-- The method `Invoice.CalculateTotals`: reset `Subtotal` to zero, run
the item loop, then set `TotalAmount` to subtotal plus `TaxAmount`. -/
def Invoice.calculateTotals (i : Invoice) : Invoice :=
  let r := calcLoop 0 i.items
  { i with items := r.2, subtotal := r.1, totalAmount := r.1 + i.taxAmount }

/-- Every record of a table passes `Dentist.IsValid`. -/
def allValid (t : Table) : Prop := ∀ d ∈ t, d.isValid = none

/-- Sample stored record. -/
def cur0 : Dentist :=
  { id := "d1", name := "Dr. A", email := "a@x.com", phone := "",
    cro := "SP-111", country := "BR", specialty := "",
    createdAt := 10, updatedAt := 10 }

/-- Sample single-field update payload (only the name is present). -/
def pay0 : Dentist :=
  { id := "", name := "Dr. B", email := "", phone := "", cro := "",
    country := "", specialty := "", createdAt := 0, updatedAt := 0 }

/-- Sample one-record table. -/
def tbl0 : Table := [cur0]

/-- Sample dentist whose name contains a capitalised Smith. -/
def drSmith : Dentist :=
  { id := "s1", name := "Dr. John Smith", email := "js@x.com", phone := "",
    cro := "SP-100", country := "USA", specialty := "",
    createdAt := 1, updatedAt := 1 }

/-- Sample dentist whose name starts with a lower-case smith. -/
def janeSmith : Dentist :=
  { id := "s2", name := "smith, jane", email := "sj@x.com", phone := "",
    cro := "sp-200", country := "USA", specialty := "",
    createdAt := 1, updatedAt := 1 }

/-- Sample dentist whose name does not contain smith. -/
def johnson : Dentist :=
  { id := "s3", name := "Johnson", email := "jo@x.com", phone := "",
    cro := "SP-300", country := "USA", specialty := "",
    createdAt := 1, updatedAt := 1 }

/-- Sample three-record table for the search endpoints. -/
def tblSearch : Table := [drSmith, janeSmith, johnson]

/-- The payload of the spec's concrete POST scenario: required fields
present, no ID, no timestamps. -/
def payNew : Dentist :=
  { id := "", name := "Dr. John Smith", email := "j@x.com", phone := "",
    cro := "12345", country := "USA", specialty := "",
    createdAt := 0, updatedAt := 0 }

/-- The record `CreateDentist` builds from `payNew` when the two clock
reads return 5 and 6. -/
def createdRec : Dentist :=
  { id := "gen-1", name := "Dr. John Smith", email := "j@x.com",
    phone := "", cro := "12345", country := "USA", specialty := "",
    createdAt := 5, updatedAt := 6 }

/-- Sample payload missing its required CRO field. -/
def payNoCRO : Dentist :=
  { id := "", name := "Dr. C", email := "c@x.com", phone := "", cro := "",
    country := "BR", specialty := "", createdAt := 0, updatedAt := 0 }

/-- Sample stored record whose `updatedAt` is the instant 5. -/
def stale0 : Dentist :=
  { id := "d1", name := "A", email := "e@x.com", phone := "",
    cro := "SP-1", country := "BR", specialty := "",
    createdAt := 3, updatedAt := 5 }

/-- The record `UpdateDentist` stores when `stale0` receives the
name-only payload `pay0` at clock value 5. -/
def updRec : Dentist :=
  { id := "d1", name := "Dr. B", email := "e@x.com", phone := "",
    cro := "SP-1", country := "BR", specialty := "",
    createdAt := 3, updatedAt := 5 }

/-- The sequential merge of `UpdateDentist` collapses to an independent
per-field choice, each field taken from the payload exactly when the
payload's value is non-empty. -/
theorem mergeDentist_eq (cur payload : Dentist) :
    mergeDentist cur payload =
      { cur with
        name := if payload.name = "" then cur.name else payload.name,
        email := if payload.email = "" then cur.email else payload.email,
        phone := if payload.phone = "" then cur.phone else payload.phone,
        cro := if payload.cro = "" then cur.cro else payload.cro,
        country := if payload.country = "" then cur.country else payload.country,
        specialty := if payload.specialty = "" then cur.specialty
          else payload.specialty } := by
  simp only [mergeDentist]
  split <;> split <;> split <;> split <;> split <;> split <;>
    simp_all [Dentist.mk.injEq]

theorem keyExists_of_mem {t : Table} {d : Dentist} (hd : d ∈ t)
    {id : String} (hid : d.id = id) : keyExists t id = true := by
  simp only [keyExists, List.any_eq_true]
  exact ⟨d, hd, by simp [hid]⟩

theorem getItem_eq_none_of_not_keyExists {t : Table} {id : String}
    (h : keyExists t id = false) : getItem t id = none := by
  simp only [keyExists, List.any_eq_false, beq_iff_eq] at h
  simp only [getItem, List.find?_eq_none, beq_iff_eq]
  exact h

theorem isValid_set_id (d : Dentist) (s : String) :
    Dentist.isValid { d with id := s } = d.isValid := rfl

theorem isValid_set_createdAt (d : Dentist) (n : Nat) :
    Dentist.isValid { d with createdAt := n } = d.isValid := rfl

theorem isValid_set_updatedAt (d : Dentist) (n : Nat) :
    Dentist.isValid { d with updatedAt := n } = d.isValid := rfl

theorem stampCreate_id (d : Dentist) (now1 now2 : Nat) :
    (stampCreate d now1 now2).id = d.id := by
  simp only [stampCreate]
  split <;> split <;> rfl

theorem stampCreate_isValid (d : Dentist) (now1 now2 : Nat) :
    (stampCreate d now1 now2).isValid = d.isValid := by
  simp only [stampCreate]
  split <;> split <;> rfl

theorem stampCreate_of_zero (d : Dentist) (now1 now2 : Nat)
    (hc : d.createdAt = 0) (hu : d.updatedAt = 0) :
    stampCreate d now1 now2 =
      { d with createdAt := now1, updatedAt := now2 } := by
  simp [stampCreate, hc, hu]

/-- Shared characterization of a successful `UpdateDentist` call. -/
theorem updateDentist_ok (now : Nat) (t : Table) (id : String)
    (payload cur : Dentist) (hget : getItem t id = some cur)
    (hval : (mergeDentist cur payload).isValid = none) :
    updateDentist now t id payload =
      (.okRecord { mergeDentist cur payload with updatedAt := now },
       t.map (fun x =>
        if x.id ==
            ({ mergeDentist cur payload with updatedAt := now } : Dentist).id
        then { mergeDentist cur payload with updatedAt := now } else x)) := by
  have hmem : cur ∈ t := List.mem_of_find?_eq_some hget
  have hmid : (mergeDentist cur payload).id = cur.id := by rw [mergeDentist_eq]
  have hkey :
      keyExists t
        ({ mergeDentist cur payload with updatedAt := now } : Dentist).id
        = true :=
    keyExists_of_mem hmem hmid.symm
  simp only [updateDentist, hget, hval, putIfExists, hkey, if_true]

/-- Shared characterization of a successful `CreateDentist` call on a
payload with blank ID and zero timestamps. -/
theorem createDentist_ok (freshId : String) (now1 now2 : Nat) (t : Table)
    (payload : Dentist) (hid : payload.id = "") (hc : payload.createdAt = 0)
    (hu : payload.updatedAt = 0) (hval : payload.isValid = none)
    (hkey : keyExists t freshId = false) :
    createDentist freshId now1 now2 t payload =
      (.created { payload with
                  id := freshId, createdAt := now1, updatedAt := now2 },
       t ++ [{ payload with
               id := freshId, createdAt := now1, updatedAt := now2 }]) := by
  have hstamp : stampCreate { payload with id := freshId } now1 now2 =
      { payload with id := freshId, createdAt := now1, updatedAt := now2 } :=
    stampCreate_of_zero _ now1 now2 hc hu
  simp [createDentist, if_pos hid, isValid_set_id, hval, hstamp,
    putIfAbsent, hkey]

/-- C2: a successful partial Update merges the payload onto the stored
record: every present non-empty payload field overwrites, every empty
payload field preserves the stored value, and the stored `ID` and
`CreatedAt` are written back and returned unchanged; the written table
replaces exactly the keyed item. -/
theorem updateDentist_merge_semantics
    (now : Nat) (t : Table) (id : String) (payload cur : Dentist)
    (hget : getItem t id = some cur)
    (hval : (mergeDentist cur payload).isValid = none) :
    ∃ m',
      updateDentist now t id payload =
        (.okRecord m', t.map (fun x => if x.id == m'.id then m' else x)) ∧
      m'.id = cur.id ∧ m'.createdAt = cur.createdAt ∧ m'.updatedAt = now ∧
      m'.name = (if payload.name = "" then cur.name else payload.name) ∧
      m'.email = (if payload.email = "" then cur.email else payload.email) ∧
      m'.phone = (if payload.phone = "" then cur.phone else payload.phone) ∧
      m'.cro = (if payload.cro = "" then cur.cro else payload.cro) ∧
      m'.country = (if payload.country = "" then cur.country
        else payload.country) ∧
      m'.specialty = (if payload.specialty = "" then cur.specialty
        else payload.specialty) := by
  have hmerge := mergeDentist_eq cur payload
  refine ⟨{ mergeDentist cur payload with updatedAt := now }, ?_, ?_, ?_,
    rfl, ?_, ?_, ?_, ?_, ?_, ?_⟩
  · exact updateDentist_ok now t id payload cur hget hval
  · rw [hmerge]
  · rw [hmerge]
  · rw [hmerge]
  · rw [hmerge]
  · rw [hmerge]
  · rw [hmerge]
  · rw [hmerge]
  · rw [hmerge]

theorem putIfAbsent_some {t t' : Table} {d : Dentist}
    (h : putIfAbsent t d = some t') : t' = t ++ [d] := by
  simp only [putIfAbsent] at h
  split at h
  · exact absurd h (by simp)
  · exact (Option.some.inj h).symm

theorem putIfExists_some {t t' : Table} {d : Dentist}
    (h : putIfExists t d = some t') :
    t' = t.map (fun x => if x.id == d.id then d else x) := by
  simp only [putIfExists] at h
  split at h
  · exact (Option.some.inj h).symm
  · exact absurd h (by simp)

/-- Any table `CreateDentist` leaves behind is either the input table or
the input table extended with one record that passed validation. -/
theorem createDentist_table_cases (freshId : String) (now1 now2 : Nat)
    (t : Table) (payload : Dentist) :
    (createDentist freshId now1 now2 t payload).2 = t ∨
    ∃ d, d.isValid = none ∧
      (createDentist freshId now1 now2 t payload).2 = t ++ [d] := by
  simp only [createDentist]
  split
  · exact Or.inl rfl
  next hval =>
    split
    · exact Or.inl rfl
    next t' hput =>
      refine Or.inr ⟨stampCreate
        (if payload.id = "" then { payload with id := freshId } else payload)
        now1 now2, ?_, ?_⟩
      · rw [stampCreate_isValid]; exact hval
      · exact putIfAbsent_some hput

/-- Any table `UpdateDentist` leaves behind is either the input table or
the input table with the keyed item replaced by a record that passed
validation. -/
theorem updateDentist_table_cases (now : Nat) (t : Table) (id : String)
    (payload : Dentist) :
    (updateDentist now t id payload).2 = t ∨
    ∃ m', m'.isValid = none ∧
      (updateDentist now t id payload).2 =
        t.map (fun x => if x.id == m'.id then m' else x) := by
  simp only [updateDentist]
  split
  · exact Or.inl rfl
  next cur hget =>
    split
    · exact Or.inl rfl
    next hval =>
      split
      · exact Or.inl rfl
      next t' hput =>
        refine Or.inr
          ⟨{ mergeDentist cur payload with updatedAt := now }, ?_, ?_⟩
        · rw [isValid_set_updatedAt]; exact hval
        · exact putIfExists_some hput

/-- C1: validation runs on the fully merged record immediately before it
is persisted.  Being valid is exactly having every required field
(Name, Email, CRO, Country) non-empty; a validation failure on Create or
on the post-merge state of an Update answers BadRequest with the message
naming the missing field and leaves the table untouched; and any table
whose records are all valid still has only valid records after any
Create or Update call, so every record actually written is valid. -/
theorem validation_guards_every_write :
    (∀ d : Dentist, d.isValid = none ↔
      (d.name ≠ "" ∧ d.email ≠ "" ∧ d.cro ≠ "" ∧ d.country ≠ "")) ∧
    (Dentist.isValid payNoCRO = some "CRO is required") ∧
    (∀ freshId now1 now2 t payload msg, payload.isValid = some msg →
      createDentist freshId now1 now2 t payload = (.badRequest msg, t)) ∧
    (∀ now t id payload cur msg, getItem t id = some cur →
      (mergeDentist cur payload).isValid = some msg →
      updateDentist now t id payload = (.badRequest msg, t)) ∧
    (∀ freshId now1 now2 t payload, allValid t →
      allValid (createDentist freshId now1 now2 t payload).2) ∧
    (∀ now t id payload, allValid t →
      allValid (updateDentist now t id payload).2) := by
  refine ⟨?_, by decide, ?_, ?_, ?_, ?_⟩
  · intro d
    by_cases h1 : d.name = "" <;> by_cases h2 : d.email = "" <;>
      by_cases h3 : d.cro = "" <;> by_cases h4 : d.country = "" <;>
      simp [Dentist.isValid, h1, h2, h3, h4]
  · intro freshId now1 now2 t payload msg h
    by_cases hid : payload.id = ""
    · simp only [createDentist, if_pos hid, isValid_set_id, h]
    · simp only [createDentist, if_neg hid, h]
  · intro now t id payload cur msg hget hval
    simp only [updateDentist, hget, hval]
  · intro freshId now1 now2 t payload hall
    rcases createDentist_table_cases freshId now1 now2 t payload with
      h | ⟨d, hd, h⟩
    · rw [h]; exact hall
    · rw [h]
      intro x hx
      rcases List.mem_append.mp hx with hx | hx
      · exact hall x hx
      · rw [List.mem_singleton.mp hx]
        exact hd
  · intro now t id payload hall
    rcases updateDentist_table_cases now t id payload with h | ⟨m', hm', h⟩
    · rw [h]; exact hall
    · rw [h]
      intro x hx
      rcases List.mem_map.mp hx with ⟨y, hy, hxy⟩
      by_cases hyid : (y.id == m'.id) = true
      · rw [← hxy, if_pos hyid]; exact hm'
      · rw [← hxy, if_neg hyid]; exact hall y hy

/-- C3: Create with a client-supplied ID already present in the table
answers Conflict (409) and leaves the table unchanged; Create with a
blank ID stores the fresh token as the record's ID and succeeds with
201; and the duplicate check is exactly the conditional-write primitive
failing when the key exists. -/
theorem create_conflict_or_fresh_id :
    (∀ freshId now1 now2 t payload, payload.id ≠ "" →
      payload.isValid = none → keyExists t payload.id = true →
      createDentist freshId now1 now2 t payload =
        (.conflict "Dentist with this ID already exists", t)) ∧
    (∀ freshId now1 now2 t payload, payload.id = "" →
      payload.isValid = none → keyExists t freshId = false →
      ∃ d, createDentist freshId now1 now2 t payload =
          (.created d, t ++ [d]) ∧ d.id = freshId) ∧
    (∀ d, (HttpResponse.created d).status = 201) ∧
    (∀ msg, (HttpResponse.conflict msg).status = 409) ∧
    (∀ t d, putIfAbsent t d = none ↔ keyExists t d.id = true) := by
  refine ⟨?_, ?_, fun d => rfl, fun msg => rfl, ?_⟩
  · intro freshId now1 now2 t payload hid hval hkey
    have hsid : keyExists t (stampCreate payload now1 now2).id = true := by
      rw [stampCreate_id]; exact hkey
    simp only [createDentist, if_neg hid, hval, putIfAbsent, hsid, if_true]
  · intro freshId now1 now2 t payload hid hval hkey
    have hsid :
        keyExists t (stampCreate { payload with id := freshId } now1 now2).id
          = false := by
      rw [stampCreate_id]; exact hkey
    refine ⟨stampCreate { payload with id := freshId } now1 now2, ?_,
      by rw [stampCreate_id]⟩
    simp [createDentist, if_pos hid, isValid_set_id, hval, putIfAbsent, hsid]
  · intro t d
    simp only [putIfAbsent]
    by_cases h : keyExists t d.id = true <;> simp [h]

/-- C4: Update of a nonexistent ID answers NotFound (404) and changes
nothing, Delete of a nonexistent ID answers NotFound (404) and changes
nothing, and the existence precondition is exactly the conditional
write's: the conditional put and the conditional delete fail precisely
when no item holds the key. -/
theorem missing_id_yields_notFound :
    (∀ now t id payload, keyExists t id = false →
      updateDentist now t id payload = (.notFound "Dentist not found", t)) ∧
    (∀ t id, keyExists t id = false →
      deleteDentist t id = (.notFound "Dentist not found", t)) ∧
    (∀ msg, (HttpResponse.notFound msg).status = 404) ∧
    (∀ t d, putIfExists t d = none ↔ keyExists t d.id = false) ∧
    (∀ t id, deleteIfExists t id = none ↔ keyExists t id = false) := by
  refine ⟨?_, ?_, fun msg => rfl, ?_, ?_⟩
  · intro now t id payload h
    simp only [updateDentist, getItem_eq_none_of_not_keyExists h]
  · intro t id h
    simp [deleteDentist, deleteIfExists, h]
  · intro t d
    simp only [putIfExists]
    by_cases h : keyExists t d.id = true <;> simp [h]
  · intro t id
    simp only [deleteIfExists]
    by_cases h : keyExists t id = true <;> simp [h]

theorem foldl_goAppend (l : List Dentist) (acc : GoSlice Dentist) :
    l.foldl goAppend acc =
      if l = [] then acc else some (acc.getD [] ++ l) := by
  induction l generalizing acc with
  | nil => rfl
  | cons a u ih =>
    simp only [List.foldl_cons, ih]
    cases u with
    | nil => simp [goAppend]
    | cons b v => simp [goAppend]

/-- The accumulation loop yields the nil slice exactly on an empty scan,
and otherwise a non-nil slice holding precisely the scanned items. -/
theorem buildSlice_eq (l : List Dentist) :
    buildSlice l = if l = [] then none else some l := by
  cases l with
  | nil => rfl
  | cons a u =>
    cases u with
    | nil => simp [buildSlice, foldl_goAppend, goAppend]
    | cons b v => simp [buildSlice, foldl_goAppend, goAppend]

theorem nameScan_fold (nm : String) (l : List Dentist)
    (acc : GoSlice Dentist) :
    l.foldl
      (fun acc' dd =>
        if goContains (goToLower dd.name) (goToLower nm) then goAppend acc' dd
        else acc') acc =
      (l.filter (fun d => goContains (goToLower d.name) (goToLower nm))).foldl
        goAppend acc := by
  induction l generalizing acc with
  | nil => rfl
  | cons a u ih =>
    by_cases h : goContains (goToLower a.name) (goToLower nm) = true <;>
      simp [List.filter_cons, h, ih]

/-- The internal name-search handler answers exactly by filtering the
table with case-insensitive substring containment. -/
theorem getDentistByNameScan_eq (t : Table) (name : String) :
    getDentistByNameScan t name =
      if t.filter (fun d => goContains (goToLower d.name) (goToLower name)) = []
      then .notFound "No dentists found with this name"
      else .okRecords (some (t.filter
        (fun d => goContains (goToLower d.name) (goToLower name)))) := by
  have hf := nameScan_fold name t none
  have hb : (t.filter
      (fun d => goContains (goToLower d.name) (goToLower name))).foldl goAppend none
      = buildSlice (t.filter
        (fun d => goContains (goToLower d.name) (goToLower name))) := rfl
  by_cases h :
      t.filter (fun d => goContains (goToLower d.name) (goToLower name)) = [] <;>
    simp [getDentistByNameScan, hf, hb, buildSlice_eq, h,
      List.length_eq_zero]

/-- The canonical dental-module name search answers 200 with exactly
the records the store's case-sensitive contains filter retains. -/
theorem getDentistByNameDental_eq (t : Table) (needle : String) :
    getDentistByNameDental t needle =
      .okRecords
        (if t.filter (fun d => goContains d.name needle) = [] then none
         else some (t.filter (fun d => goContains d.name needle))) := by
  simp only [getDentistByNameDental, buildSlice_eq]

/-- C5 counterexample: the name Dr. John Smith does contain smith
ignoring case, yet the claim's cited canonical dental-module name
search, whose filter is the store's case-sensitive contains, excludes
the record — it returns 200 with zero matches on a table holding only
that dentist, refuting the claimed case-insensitive matching. -/
theorem name_search_case_sensitive_counterexample :
    goContains (goToLower drSmith.name) (goToLower "smith") = true ∧
    goContains drSmith.name "smith" = false ∧
    getDentistByNameDental [drSmith] "smith" = .okRecords none := by
  refine ⟨by decide, by decide, by decide⟩

/-- C5 amended: only the internal-revision name search is
case-insensitive — it retains exactly the records whose lowered name
contains the lowered needle, so smith matches Dr. John Smith and
smith, jane and excludes Johnson; the canonical dental-module revision
delegates the filter to the store's case-sensitive contains and so
retains exactly the exact-case substring matches, where smith excludes
Dr. John Smith and matches only smith, jane. -/
theorem name_search_dual_revisions :
    (∀ t needle,
      getDentistByNameScan t needle =
        if t.filter
            (fun d => goContains (goToLower d.name) (goToLower needle)) = []
        then .notFound "No dentists found with this name"
        else .okRecords (some (t.filter
          (fun d => goContains (goToLower d.name) (goToLower needle))))) ∧
    goContains (goToLower "Dr. John Smith") (goToLower "smith") = true ∧
    goContains (goToLower "smith, jane") (goToLower "smith") = true ∧
    goContains (goToLower "Johnson") (goToLower "smith") = false ∧
    getDentistByNameScan tblSearch "smith" =
      .okRecords (some [drSmith, janeSmith]) ∧
    (∀ t needle,
      getDentistByNameDental t needle =
        .okRecords
          (if t.filter (fun d => goContains d.name needle) = [] then none
           else some (t.filter (fun d => goContains d.name needle)))) ∧
    getDentistByNameDental tblSearch "smith" =
      .okRecords (some [janeSmith]) := by
  exact ⟨getDentistByNameScan_eq, by decide, by decide, by decide, by decide,
    getDentistByNameDental_eq, by decide⟩

theorem findByCRO_eq (t : List Dentist) (cro : String) :
    findByCRO t cro = (t.filter (fun d => goEqualFold d.cro cro)).head? := by
  induction t with
  | nil => rfl
  | cons a u ih =>
    by_cases h : goEqualFold a.cro cro = true <;>
      simp [findByCRO, List.filter_cons, h, ih]

/-- The canonical dental-module CRO lookup answers with the head of the
store's case-sensitive equality filter, or 404. -/
theorem getDentistByCRODental_eq (t : Table) (cro : String) :
    getDentistByCRODental t cro =
      match (t.filter (fun d => d.cro == cro)).head? with
      | some d => .okRecord d
      | none => .notFound "Dentist not found" := by
  simp only [getDentistByCRODental]
  cases t.filter (fun d => d.cro == cro) <;> rfl

/-- C6 counterexample: the stored CRO SP-100 equals the needle sp-100
ignoring case, yet the claim's cited canonical dental-module CRO lookup,
whose filter is the store's case-sensitive equality, answers NotFound
on a table holding that dentist, refuting the claimed case-insensitive
matching. -/
theorem cro_search_case_sensitive_counterexample :
    goEqualFold drSmith.cro "sp-100" = true ∧
    (drSmith.cro == "sp-100") = false ∧
    getDentistByCRODental [drSmith] "sp-100" =
      .notFound "Dentist not found" := by
  refine ⟨by decide, by decide, by decide⟩

/-- C6 amended: both revisions of the CRO lookup scan the collection,
keep the records whose CRO matches the needle, and answer 200 with the
first retained record or NotFound (404) when none matches; the match is
case-insensitive (strings.EqualFold) only in the internal revision,
while the canonical dental-module revision matches with the store's
case-sensitive equality, so sp-100 does not find a stored SP-100
there. -/
theorem cro_search_dual_revisions :
    (∀ t cro d,
      (t.filter (fun d' => goEqualFold d'.cro cro)).head? = some d →
      getDentistByCROScan t cro = .okRecord d) ∧
    (∀ t cro, (∀ d ∈ t, goEqualFold d.cro cro = false) →
      getDentistByCROScan t cro =
        .notFound "No dentist found with this CRO") ∧
    (∀ t cro d,
      (t.filter (fun d' => d'.cro == cro)).head? = some d →
      getDentistByCRODental t cro = .okRecord d) ∧
    (∀ t cro, (∀ d ∈ t, (d.cro == cro) = false) →
      getDentistByCRODental t cro = .notFound "Dentist not found") ∧
    (∀ msg, (HttpResponse.notFound msg).status = 404) ∧
    getDentistByCROScan tblSearch "sp-100" = .okRecord drSmith ∧
    getDentistByCROScan tblSearch "SP-999" =
      .notFound "No dentist found with this CRO" ∧
    getDentistByCRODental tblSearch "SP-100" = .okRecord drSmith := by
  refine ⟨?_, ?_, ?_, ?_, fun msg => rfl, by decide, by decide, by decide⟩
  · intro t cro d h
    simp only [getDentistByCROScan, findByCRO_eq, h]
  · intro t cro h
    have hf : t.filter (fun d => goEqualFold d.cro cro) = [] := by
      rw [List.filter_eq_nil_iff]
      intro a ha
      simp [h a ha]
    simp only [getDentistByCROScan, findByCRO_eq, hf, List.head?_nil]
  · intro t cro d h
    simp only [getDentistByCRODental_eq, h]
  · intro t cro h
    have hf : t.filter (fun d => d.cro == cro) = [] := by
      rw [List.filter_eq_nil_iff]
      intro a ha
      simp [h a ha]
    simp only [getDentistByCRODental_eq, hf, List.head?_nil]

/-- C9: with zero stored records, or zero records matching the name
filter, the canonical dental-module list and name-search handlers answer
200 with the nil slice, which encodes as the JSON value null and is
distinct from an allocated empty array. -/
theorem empty_scan_encodes_null :
    (getAllDentists [] = .okRecords none ∧
      (getAllDentists []).status = 200 ∧
      (none : GoSlice Dentist) ≠ some []) ∧
    (∀ t needle, t.filter (fun d => goContains d.name needle) = [] →
      getDentistByNameDental t needle = .okRecords none ∧
      (getDentistByNameDental t needle).status = 200) := by
  refine ⟨⟨rfl, rfl, by decide⟩, ?_⟩
  intro t needle h
  constructor
  · simp only [getDentistByNameDental, h]
    rfl
  · simp only [getDentistByNameDental, h]
    rfl

/-- C7 counterexample: on the spec's concrete POST payload, with the two
clock reads of `CreateDentist` returning the distinct instants 5 and 6
(the generic case for a nanosecond-resolution clock), the call succeeds
with 201 and a generated ID, but the returned record has
CreatedAt = 5 and UpdatedAt = 6, so CreatedAt equals UpdatedAt fails. -/
theorem create_scenario_unequal_clock_reads :
    createDentist "gen-1" 5 6 ([] : Table) payNew =
      (.created createdRec, [createdRec]) ∧
    (createDentist "gen-1" 5 6 ([] : Table) payNew).1.status = 201 ∧
    createdRec.id = "gen-1" ∧
    createdRec.createdAt ≠ createdRec.updatedAt := by
  refine ⟨by decide, by decide, rfl, by decide⟩

/-- C7 amended: a POST of a payload with the required fields, no ID and
no timestamps succeeds with 201, stores the fresh token as the ID, and
stamps CreatedAt and UpdatedAt from the two clock reads; when both reads
return the same instant the returned record has
CreatedAt = UpdatedAt. -/
theorem create_scenario_same_instant (freshId : String) (n : Nat)
    (t : Table) (payload : Dentist) (hid : payload.id = "")
    (hc : payload.createdAt = 0) (hu : payload.updatedAt = 0)
    (hval : payload.isValid = none)
    (hkey : keyExists t freshId = false) :
    ∃ d, createDentist freshId n n t payload = (.created d, t ++ [d]) ∧
      (createDentist freshId n n t payload).1.status = 201 ∧
      d.id = freshId ∧ d.createdAt = n ∧ d.updatedAt = n ∧
      d.createdAt = d.updatedAt := by
  have h := createDentist_ok freshId n n t payload hid hc hu hval hkey
  refine ⟨{ payload with
            id := freshId, createdAt := n, updatedAt := n },
    h, ?_, rfl, rfl, rfl, rfl⟩
  rw [h]
  rfl

/-- C8 counterexample: updating `stale0` (stored UpdatedAt value 5) with
the name-only payload at an update-time clock read also equal to 5 (two
mutations within the same second at the stored RFC3339 one-second
granularity) succeeds but stores UpdatedAt = 5 again, so the new value
is not strictly later than the prior one. -/
theorem update_same_second_counterexample :
    updateDentist 5 [stale0] "d1" pay0 = (.okRecord updRec, [updRec]) ∧
    stale0.updatedAt = 5 ∧ updRec.updatedAt = 5 ∧
    ¬ stale0.updatedAt < updRec.updatedAt := by
  refine ⟨by decide, rfl, rfl, by decide⟩

/-- C8 amended: every successful partial Update stores and returns a
record whose UpdatedAt is the clock value read during the update; it is
strictly later than the prior stored UpdatedAt exactly when that clock
value is strictly later. -/
theorem update_refreshes_updatedAt (now : Nat) (t : Table) (id : String)
    (payload cur : Dentist) (hget : getItem t id = some cur)
    (hval : (mergeDentist cur payload).isValid = none) :
    ∃ m', (updateDentist now t id payload).1 = .okRecord m' ∧
      m'.updatedAt = now ∧
      (cur.updatedAt < now → cur.updatedAt < m'.updatedAt) := by
  refine ⟨{ mergeDentist cur payload with updatedAt := now }, ?_, rfl, ?_⟩
  · rw [updateDentist_ok now t id payload cur hget hval]
  · intro h
    exact h

theorem calcLoop_items (l : List InvoiceItem) (acc : Rat) :
    (calcLoop acc l).2 = l.map (fun it =>
      { it with totalPrice := (it.quantity : Rat) * it.unitPrice }) := by
  induction l generalizing acc with
  | nil => rfl
  | cons a u ih => simp [calcLoop, ih]

theorem calcLoop_subtotal (l : List InvoiceItem) (acc : Rat) :
    (calcLoop acc l).1 =
      acc + (((calcLoop acc l).2).map (fun it => it.totalPrice)).sum := by
  induction l generalizing acc with
  | nil => simp [calcLoop]
  | cons a u ih =>
    simp only [calcLoop, List.map_cons, List.sum_cons]
    rw [ih]
    ring

/-- C10: after `CalculateTotals`, every item's TotalPrice is its
Quantity times its UnitPrice (all other item fields untouched), Subtotal
is the sum of the items' TotalPrice values, and TotalAmount is Subtotal
plus TaxAmount — the three derived fields are overwritten regardless of
the caller-supplied values, and TaxAmount itself is unchanged. -/
theorem invoice_calculateTotals_correct (i : Invoice) :
    (i.calculateTotals).items =
      i.items.map (fun it =>
        { it with totalPrice := (it.quantity : Rat) * it.unitPrice }) ∧
    (i.calculateTotals).subtotal =
      ((i.calculateTotals).items.map (fun it => it.totalPrice)).sum ∧
    (i.calculateTotals).totalAmount =
      (i.calculateTotals).subtotal + i.taxAmount ∧
    (i.calculateTotals).taxAmount = i.taxAmount := by
  refine ⟨?_, ?_, rfl, rfl⟩
  · exact calcLoop_items i.items 0
  · have h := calcLoop_subtotal i.items 0
    simpa using h

/-- Witness for C1 at concrete inputs: creating with a missing CRO and
updating a stored record that is missing its CRO both answer BadRequest
naming the CRO field and write nothing. -/
theorem validation_guards_every_write_witness :
    Dentist.isValid payNoCRO = some "CRO is required" ∧
    createDentist "g1" 1 2 [] payNoCRO =
      (.badRequest "CRO is required", []) ∧
    getItem [{ cur0 with cro := "" }] "d1" = some { cur0 with cro := "" } ∧
    (mergeDentist { cur0 with cro := "" } pay0).isValid =
      some "CRO is required" ∧
    updateDentist 11 [{ cur0 with cro := "" }] "d1" pay0 =
      (.badRequest "CRO is required", [{ cur0 with cro := "" }]) :=
  ⟨by decide,
   validation_guards_every_write.2.2.1 "g1" 1 2 [] payNoCRO
     "CRO is required" (by decide),
   by decide, by decide,
   validation_guards_every_write.2.2.2.1 11 [{ cur0 with cro := "" }] "d1"
     pay0 { cur0 with cro := "" } "CRO is required" (by decide) (by decide)⟩

/-- Witness for C2 at a concrete input: a stored record updated with a
name-only payload. -/
theorem updateDentist_merge_semantics_witness :
    getItem tbl0 "d1" = some cur0 ∧
    (mergeDentist cur0 pay0).isValid = none ∧
    (∃ m',
      updateDentist 11 tbl0 "d1" pay0 =
        (.okRecord m', tbl0.map (fun x => if x.id == m'.id then m' else x)) ∧
      m'.id = cur0.id ∧ m'.createdAt = cur0.createdAt ∧ m'.updatedAt = 11 ∧
      m'.name = (if pay0.name = "" then cur0.name else pay0.name) ∧
      m'.email = (if pay0.email = "" then cur0.email else pay0.email) ∧
      m'.phone = (if pay0.phone = "" then cur0.phone else pay0.phone) ∧
      m'.cro = (if pay0.cro = "" then cur0.cro else pay0.cro) ∧
      m'.country = (if pay0.country = "" then cur0.country
        else pay0.country) ∧
      m'.specialty = (if pay0.specialty = "" then cur0.specialty
        else pay0.specialty)) :=
  ⟨by decide, by decide,
   updateDentist_merge_semantics 11 tbl0 "d1" pay0 cur0
     (by decide) (by decide)⟩

/-- Witness for C3 at concrete inputs: re-creating the stored `cur0`
under its own ID conflicts; creating `payNew` with a blank ID succeeds
under the fresh token. -/
theorem create_conflict_or_fresh_id_witness :
    cur0.id ≠ "" ∧ cur0.isValid = none ∧ keyExists tbl0 cur0.id = true ∧
    createDentist "g2" 3 4 tbl0 cur0 =
      (.conflict "Dentist with this ID already exists", tbl0) ∧
    payNew.id = "" ∧ payNew.isValid = none ∧
    keyExists tbl0 "g3" = false ∧
    (∃ d, createDentist "g3" 3 4 tbl0 payNew = (.created d, tbl0 ++ [d]) ∧
      d.id = "g3") :=
  ⟨by decide, by decide, by decide,
   create_conflict_or_fresh_id.1 "g2" 3 4 tbl0 cur0
     (by decide) (by decide) (by decide),
   rfl, by decide, by decide,
   create_conflict_or_fresh_id.2.1 "g3" 3 4 tbl0 payNew
     rfl (by decide) (by decide)⟩

/-- Witness for C4 at a concrete input: updating and deleting a key
absent from the one-record table. -/
theorem missing_id_yields_notFound_witness :
    keyExists tbl0 "zzz" = false ∧
    updateDentist 9 tbl0 "zzz" pay0 = (.notFound "Dentist not found", tbl0) ∧
    deleteDentist tbl0 "zzz" = (.notFound "Dentist not found", tbl0) :=
  ⟨by decide,
   missing_id_yields_notFound.1 9 tbl0 "zzz" pay0 (by decide),
   missing_id_yields_notFound.2.1 tbl0 "zzz" (by decide)⟩

/-- Witness for C6 at concrete inputs: in the internal revision the
needle sp-300 finds `johnson` (stored CRO is SP-300) and an unmatched
needle answers 404; in the canonical dental revision the exact-case
needle SP-300 finds `johnson` while the folded needle sp-300 matches
nothing and answers 404. -/
theorem cro_search_dual_revisions_witness :
    (tblSearch.filter (fun d' => goEqualFold d'.cro "sp-300")).head? =
      some johnson ∧
    getDentistByCROScan tblSearch "sp-300" = .okRecord johnson ∧
    (∀ d ∈ (tbl0 : List Dentist), goEqualFold d.cro "zzz" = false) ∧
    getDentistByCROScan tbl0 "zzz" =
      .notFound "No dentist found with this CRO" ∧
    (tblSearch.filter (fun d' => d'.cro == "SP-300")).head? = some johnson ∧
    getDentistByCRODental tblSearch "SP-300" = .okRecord johnson ∧
    (∀ d ∈ (tblSearch : List Dentist), (d.cro == "sp-300") = false) ∧
    getDentistByCRODental tblSearch "sp-300" =
      .notFound "Dentist not found" :=
  ⟨by decide,
   cro_search_dual_revisions.1 tblSearch "sp-300" johnson (by decide),
   by decide,
   cro_search_dual_revisions.2.1 tbl0 "zzz" (by decide),
   by decide,
   cro_search_dual_revisions.2.2.1 tblSearch "SP-300" johnson (by decide),
   by decide,
   cro_search_dual_revisions.2.2.2.1 tblSearch "sp-300" (by decide)⟩

/-- Witness for C7 at a concrete input: both clock reads return 7. -/
theorem create_scenario_same_instant_witness :
    payNew.id = "" ∧ payNew.createdAt = 0 ∧ payNew.updatedAt = 0 ∧
    payNew.isValid = none ∧ keyExists ([] : Table) "gen-2" = false ∧
    (∃ d, createDentist "gen-2" 7 7 ([] : Table) payNew =
        (.created d, [] ++ [d]) ∧
      (createDentist "gen-2" 7 7 ([] : Table) payNew).1.status = 201 ∧
      d.id = "gen-2" ∧ d.createdAt = 7 ∧ d.updatedAt = 7 ∧
      d.createdAt = d.updatedAt) :=
  ⟨rfl, rfl, rfl, by decide, by decide,
   create_scenario_same_instant "gen-2" 7 [] payNew
     rfl rfl rfl (by decide) (by decide)⟩

/-- Witness for C8 at a concrete input: an update at clock value 42,
strictly after the stored value 10. -/
theorem update_refreshes_updatedAt_witness :
    getItem tbl0 "d1" = some cur0 ∧
    (mergeDentist cur0 pay0).isValid = none ∧
    (∃ m', (updateDentist 42 tbl0 "d1" pay0).1 = .okRecord m' ∧
      m'.updatedAt = 42 ∧
      (cur0.updatedAt < 42 → cur0.updatedAt < m'.updatedAt)) :=
  ⟨by decide, by decide,
   update_refreshes_updatedAt 42 tbl0 "d1" pay0 cur0
     (by decide) (by decide)⟩

/-- Witness for C9 at a concrete input: the needle smith matches nothing
in a table holding only `johnson` under the store's case-sensitive
filter, and the handler answers 200 with the nil slice. -/
theorem empty_scan_encodes_null_witness :
    ([johnson] : Table).filter (fun d => goContains d.name "smith") = [] ∧
    (getDentistByNameDental [johnson] "smith" = .okRecords none ∧
      (getDentistByNameDental [johnson] "smith").status = 200) :=
  ⟨by decide,
   empty_scan_encodes_null.2 [johnson] "smith" (by decide)⟩

end GoDentist
